import Mathlib

/-!
# Verification of the branch-policy / agent-pool resource handlers

Shallow embedding of `azuredevops/crud/branchpolicy/crud_branch_policy.go`
(which concatenates the generic branch-policy resource factory and the
agent-pool resource).  Go `interface{}` values that flow through the
settings codec are embedded as the inductive `GoVal`; Terraform's
`*schema.ResourceData` is embedded as an id string plus an association
list of attributes; the remote client is a record of oracles supplied as
a parameter to each lifecycle function.  Functions that can panic in Go
(nil-pointer dereference, failed type assertion, out-of-range index)
return `Option`, with `none` standing for the panic; functions that
return a Go `error` return `Except String`.
-/

namespace BranchPolicy

/-- A Go `interface{}` value, restricted to the shapes that flow through
the settings codec: untyped `nil`, strings, booleans, integers, slices
(`[]interface{}`) and string-keyed maps (`map[string]interface{}`,
embedded as an association list). -/
inductive GoVal where
  | nil : GoVal
  | str (s : String) : GoVal
  | bool (b : Bool) : GoVal
  | int (i : Int) : GoVal
  | list (xs : List GoVal) : GoVal
  | map (kvs : List (String × GoVal)) : GoVal
deriving Repr

/-- Schema keys, from the `const` block of the source. -/
def SchemaProjectID : String := "project_id"

def SchemaEnabled : String := "enabled"

def SchemaBlocking : String := "blocking"

def SchemaSettings : String := "settings"

def SchemaScope : String := "scope"

def SchemaRepositoryID : String := "repository_id"

def SchemaRepositoryRef : String := "repository_ref"

def SchemaMatchType : String := "match_type"

mutual

/-- `fmt.Sprintf("%v", v)` for the embedded `interface{}` values:
strings print raw, booleans as `true`/`false`, integers in decimal,
untyped nil as `<nil>`, slices as `[e1 e2]` and maps as `map[k1:v1 k2:v2]`.
Go maps are unordered and `fmt` prints their keys in sorted order; the
embedding keeps each association list already sorted by key wherever the
formatted text matters, and otherwise prints entries in list order (no
property proved below depends on the order of keys in the printed text). -/
def goFormat : GoVal → String
  | .nil => "<nil>"
  | .str s => s
  | .bool b => if b then "true" else "false"
  | .int i => toString i
  | .list xs => "[" ++ goFormatElems xs ++ "]"
  | .map kvs => "map[" ++ goFormatEntries kvs ++ "]"

def goFormatElems : List GoVal → String
  | [] => ""
  | [x] => goFormat x
  | x :: y :: xs => goFormat x ++ " " ++ goFormatElems (y :: xs)

def goFormatEntries : List (String × GoVal) → String
  | [] => ""
  | [(k, v)] => k ++ ":" ++ goFormat v
  | (k, v) :: e :: kvs => k ++ ":" ++ goFormat v ++ " " ++ goFormatEntries (e :: kvs)

end

/-- Decimal value of a list of digit characters. -/
def digitsToNat (ds : List Char) : Nat :=
  ds.foldl (fun acc c => acc * 10 + (c.toNat - '0'.toNat)) 0

/-- Go's `strconv.Atoi`: an optional sign followed by one or more
decimal digits, rejecting anything else and values outside the 64-bit
signed range (Go returns a non-nil error in all of those cases, which
every caller in the source treats as failure). -/
def atoi (s : String) : Option Int :=
  let p : Bool × List Char :=
    match s.data with
    | '+' :: rest => (false, rest)
    | '-' :: rest => (true, rest)
    | cs => (false, cs)
  let ds := p.2
  if ds.isEmpty then none
  else if ds.all (fun c => c.isDigit) then
    let n : Int := Int.ofNat (digitsToNat ds)
    let v : Int := if p.1 then -n else n
    if v < -(2 ^ 63) ∨ v > 2 ^ 63 - 1 then none else some v
  else none

/-- A JSON value, as produced by Go's `encoding/json` scanner.  Number
literals are kept as their raw text: no property below depends on
numeric decoding. -/
inductive Json where
  | null : Json
  | bool (b : Bool) : Json
  | num (lit : String) : Json
  | str (s : String) : Json
  | arr (elems : List Json) : Json
  | obj (fields : List (String × Json)) : Json
deriving Repr

/-- Whitespace skipped by the JSON scanner. -/
def skipWs : List Char → List Char
  | c :: cs => if c = ' ' ∨ c = '\t' ∨ c = '\n' ∨ c = '\r' then skipWs cs else c :: cs
  | [] => []

/-- Characters that may continue a JSON number literal. -/
def isNumChar (c : Char) : Bool :=
  c.isDigit || c = '-' || c = '+' || c = '.' || c = 'e' || c = 'E'

/-- Escape characters accepted after a backslash in a JSON string. -/
def escChar : Char → Option Char
  | '"' => some '"'
  | '\\' => some '\\'
  | '/' => some '/'
  | 'b' => some (Char.ofNat 8)
  | 'f' => some (Char.ofNat 12)
  | 'n' => some '\n'
  | 'r' => some '\r'
  | 't' => some '\t'
  | _ => none

/-- Hexadecimal digit value. -/
def hexVal (c : Char) : Option Nat :=
  if c.isDigit then some (c.toNat - '0'.toNat)
  else if 'a' ≤ c ∧ c ≤ 'f' then some (c.toNat - 'a'.toNat + 10)
  else if 'A' ≤ c ∧ c ≤ 'F' then some (c.toNat - 'A'.toNat + 10)
  else none

/-- Body of a JSON string literal, after the opening quote: returns the
decoded characters and the input after the closing quote. -/
def parseStrChars : List Char → Option (List Char × List Char)
  | [] => none
  | '"' :: rest => some ([], rest)
  | '\\' :: 'u' :: h1 :: h2 :: h3 :: h4 :: rest =>
    match hexVal h1, hexVal h2, hexVal h3, hexVal h4 with
    | some a, some b, some c, some d =>
      match parseStrChars rest with
      | some (cs, r) => some (Char.ofNat (((a * 16 + b) * 16 + c) * 16 + d) :: cs, r)
      | none => none
    | _, _, _, _ => none
  | '\\' :: e :: rest =>
    match escChar e with
    | some c =>
      match parseStrChars rest with
      | some (cs, r) => some (c :: cs, r)
      | none => none
    | none => none
  | c :: rest =>
    match parseStrChars rest with
    | some (cs, r) => some (cs.cons c, r)
    | none => none

mutual

/-- Recursive-descent JSON parser (one value), fuelled by `Nat` to make
termination manifest; the top-level entry point supplies fuel larger
than the input length, which is enough because every step that recurses
consumes input. -/
def parseJsonVal : Nat → List Char → Option (Json × List Char)
  | 0, _ => none
  | fuel + 1, cs =>
    match skipWs cs with
    | 'n' :: 'u' :: 'l' :: 'l' :: rest => some (.null, rest)
    | 't' :: 'r' :: 'u' :: 'e' :: rest => some (.bool true, rest)
    | 'f' :: 'a' :: 'l' :: 's' :: 'e' :: rest => some (.bool false, rest)
    | '"' :: rest =>
      match parseStrChars rest with
      | some (cs', r) => some (.str (String.mk cs'), r)
      | none => none
    | '{' :: rest =>
      match skipWs rest with
      | '}' :: r2 => some (.obj [], r2)
      | r2 =>
        match parseJsonFields fuel r2 with
        | some (fields, r3) => some (.obj fields, r3)
        | none => none
    | '[' :: rest =>
      match skipWs rest with
      | ']' :: r2 => some (.arr [], r2)
      | r2 =>
        match parseJsonElems fuel r2 with
        | some (elems, r3) => some (.arr elems, r3)
        | none => none
    | c :: rest =>
      if c = '-' ∨ c.isDigit then
        some (.num (String.mk (c :: rest.takeWhile isNumChar)), rest.dropWhile isNumChar)
      else none
    | [] => none

/-- One or more `"key": value` members of a JSON object, up to and
including the closing brace. -/
def parseJsonFields : Nat → List Char → Option (List (String × Json) × List Char)
  | 0, _ => none
  | fuel + 1, cs =>
    match skipWs cs with
    | '"' :: rest =>
      match parseStrChars rest with
      | some (kcs, r1) =>
        match skipWs r1 with
        | ':' :: r2 =>
          match parseJsonVal fuel r2 with
          | some (v, r3) =>
            match skipWs r3 with
            | ',' :: r4 =>
              match parseJsonFields fuel r4 with
              | some (fields, r5) => some ((String.mk kcs, v) :: fields, r5)
              | none => none
            | '}' :: r4 => some ([(String.mk kcs, v)], r4)
            | _ => none
          | none => none
        | _ => none
      | none => none
    | _ => none

/-- One or more elements of a JSON array, up to and including the
closing bracket. -/
def parseJsonElems : Nat → List Char → Option (List Json × List Char)
  | 0, _ => none
  | fuel + 1, cs =>
    match parseJsonVal fuel cs with
    | some (v, r1) =>
      match skipWs r1 with
      | ',' :: r2 =>
        match parseJsonElems fuel r2 with
        | some (elems, r3) => some (v :: elems, r3)
        | none => none
      | ']' :: r2 => some ([v], r2)
      | _ => none
    | none => none

end

/-- Parse a whole string as a single JSON value; trailing non-whitespace
input is an error, as in `json.Unmarshal`. -/
def jsonParse (s : String) : Option Json :=
  match parseJsonVal (s.length + 2) s.data with
  | some (v, rest) => if skipWs rest = [] then some v else none
  | none => none

/-- One element of the `scope` array of the settings payload, i.e. one
anonymous-struct element of `commonPolicySettings.Scopes` with its three
JSON-tagged string fields. -/
structure ScopeEntry where
  repositoryID : String
  repositoryRefName : String
  matchType : String
deriving Repr, DecidableEq

/-- The `commonPolicySettings` struct: a `scope`-tagged slice of scope
entries. -/
structure CommonPolicySettings where
  scopes : List ScopeEntry
deriving Repr, DecidableEq

/-- Field lookup as done by `encoding/json` when filling a struct: an
exact tag match is preferred, otherwise a case-insensitive one; the
first matching member wins (duplicate keys in one object are not
produced by any input considered here). -/
def jsonField (fields : List (String × Json)) (key : String) : Option Json :=
  match fields.find? (fun kv => kv.1 == key) with
  | some kv => some kv.2
  | none =>
    match fields.find? (fun kv => kv.1.toLower == key.toLower) with
    | some kv => some kv.2
    | none => none

/-- A JSON-tagged string field: a missing member leaves the field at its
zero value `""` (a member of a non-string type would make `Unmarshal`
report an error that the caller ignores, likewise leaving `""`). -/
def jsonStrField (fields : List (String × Json)) (key : String) : String :=
  match jsonField fields key with
  | some (.str s) => s
  | _ => ""

/-- Decode one element of the `scope` array into a scope entry,
best-effort as `json.Unmarshal` is on mismatching shapes. -/
def decodeScopeEntry : Json → ScopeEntry
  | .obj fields =>
    { repositoryID := jsonStrField fields "repositoryId"
      repositoryRefName := jsonStrField fields "refName"
      matchType := jsonStrField fields "matchKind" }
  | _ => { repositoryID := "", repositoryRefName := "", matchType := "" }

/-- `json.Unmarshal([]byte(text), &commonPolicySettings{})` as performed
by `flattenSettings`: if the text is not a JSON object (in particular if
it does not parse at all), the struct keeps its zero value — the
returned error is ignored by the caller. -/
def unmarshalCommonPolicySettings (text : String) : CommonPolicySettings :=
  match jsonParse text with
  | some (.obj fields) =>
    match jsonField fields "scope" with
    | some (.arr elems) => { scopes := elems.map decodeScopeEntry }
    | _ => { scopes := [] }
  | _ => { scopes := [] }

/-- Terraform's `*schema.ResourceData`, reduced to what the source
touches: the resource id (`d.Id()`/`d.SetId`) and the attribute store
(`d.Get`/`d.Set`).  Attributes are an association list; `set` replaces
any previous binding of the key. -/
structure ResourceData where
  id : String
  attrs : List (String × GoVal)
deriving Repr

/-- `d.Set(k, v)` (its error result is ignored by every caller in the
source). -/
def ResourceData.set (d : ResourceData) (k : String) (v : GoVal) : ResourceData :=
  { d with attrs := (k, v) :: d.attrs.filter (fun kv => !(kv.1 == k)) }

/-- `d.SetId(s)`. -/
def ResourceData.setId (d : ResourceData) (s : String) : ResourceData :=
  { d with id := s }

/-- `d.Get(k)` as a raw value; `none` when the attribute was never set
(Terraform would then return the schema's zero value, and the one place
this matters — `d.Get(SchemaSettings)` followed by indexing — panics on
the zero value just as it does here). -/
def ResourceData.get (d : ResourceData) (k : String) : Option GoVal :=
  match d.attrs.find? (fun kv => kv.1 == k) with
  | some kv => some kv.2
  | none => none

/-- `d.Get(k).(string)` for attributes the schema declares as strings
(the declared schema guarantees the assertion succeeds; a never-written
attribute reads as the zero value `""`). -/
def ResourceData.getStr (d : ResourceData) (k : String) : String :=
  match d.get k with
  | some (.str s) => s
  | _ => ""

/-- `d.Get(k).(bool)` for attributes the schema declares as booleans. -/
def ResourceData.getBool (d : ResourceData) (k : String) : Bool :=
  match d.get k with
  | some (.bool b) => b
  | _ => false

/-- `policy.PolicyConfiguration`, reduced to the fields the source
touches.  Pointer-typed fields are `Option`; `settings` is the untyped
`interface{}` payload. -/
structure PolicyConfiguration where
  id : Option Int
  isEnabled : Option Bool
  isBlocking : Option Bool
  typeId : Option String
  settings : GoVal
deriving Repr

/-- Modelled from the spec: `converter.ToBool` from `utils/converter`
(a repository package not present under `src/`): dereferences the
pointer when non-nil and otherwise returns the supplied default. -/
def toBool (o : Option Bool) (dflt : Bool) : Bool := o.getD dflt

/-- Modelled from the spec: `converter.ToString` from `utils/converter`
(a repository package not present under `src/`): dereferences the
pointer when non-nil and otherwise returns the supplied default. -/
def toStr (o : Option String) (dflt : String) : String := o.getD dflt

/-- An error coming back from the remote client, as classified by the
handlers: the client collaborator distinguishes a "not found" response
from every other failure; `msg` is the error's rendered text. -/
inductive RemoteErr where
  | notFound (msg : String)
  | other (msg : String)
deriving Repr, DecidableEq

/-- The rendered text of a remote error (`%v`/`%+v`). -/
def RemoteErr.toText : RemoteErr → String
  | .notFound m => m
  | .other m => m

/-- Modelled from the spec: `utils.ResponseWasNotFound` from `utils`
(a repository package not present under `src/`): holds exactly when the
error is the remote client's distinguishable "not found" condition (and
is false for a nil error). -/
def responseWasNotFound : RemoteErr → Bool
  | .notFound _ => true
  | .other _ => false

/-- The Go loop over `settingsScopes` in `expandSettings`: builds the
output slice in order and propagates the panic (`none`) of the failed
type assertion `scope.(map[string]interface{})` on the first offending
element. -/
def mapOption (f : α → Option β) : List α → Option (List β)
  | [] => some []
  | x :: xs =>
    match f x with
    | none => none
    | some y =>
      match mapOption f xs with
      | none => none
      | some ys => some (y :: ys)

/-- Body of the `expandSettings` loop for one scope: asserts the element
is a `map[string]interface{}` (panic otherwise) and builds the
API-side map `{repositoryId, refName, matchKind}` from the schema keys;
a missing schema key inserts Go's untyped `nil`.  The association list
is stored with its keys pre-sorted (`matchKind < refName <
repositoryId`) so that `goFormat` prints it exactly as `fmt` would. -/
def expandScope : GoVal → Option GoVal
  | .map scopeMap =>
    some (.map
      [("matchKind", ((scopeMap.find? (fun kv => kv.1 == SchemaMatchType)).map Prod.snd).getD .nil),
       ("refName", ((scopeMap.find? (fun kv => kv.1 == SchemaRepositoryRef)).map Prod.snd).getD .nil),
       ("repositoryId", ((scopeMap.find? (fun kv => kv.1 == SchemaRepositoryID)).map Prod.snd).getD .nil)])
  | _ => none

/-- `expandSettings` (schema → API settings payload): reads the
`settings` attribute, asserts it is a non-empty `[]interface{}`
(`settingsList[0]` panics on an empty or missing list), asserts the
wrapper is a map and its `scope` member a `[]interface{}`, and converts
each scope element.  `none` models the panics of the failed assertions
and of the out-of-range index. -/
def expandSettings (d : ResourceData) : Option GoVal :=
  match d.get SchemaSettings with
  | some (.list (wrapper :: _)) =>
    match wrapper with
    | .map settings =>
      match (settings.find? (fun kv => kv.1 == SchemaScope)).map Prod.snd with
      | some (.list settingsScopes) =>
        match mapOption expandScope settingsScopes with
        | some scopes => some (.map [(SchemaScope, .list scopes)])
        | none => none
      | _ => none
    | _ => none
  | _ => none

/-- `flattenSettings` (API settings payload → schema): renders the
untyped settings payload with `fmt.Sprintf("%v", ...)`, feeds that text
to `json.Unmarshal` IGNORING its error, and rebuilds the schema-side
wrapper; note that each rebuilt scope element is additionally wrapped
under a `scope` key, exactly as in the source.  The `d` parameter of the
source function is unused and omitted. -/
def flattenSettings (settings : GoVal) : GoVal :=
  let policySettings := unmarshalCommonPolicySettings (goFormat settings)
  GoVal.list
    [GoVal.map
      [(SchemaScope,
        GoVal.list
          (policySettings.scopes.map (fun scope =>
            GoVal.map
              [(SchemaScope,
                GoVal.map
                  [(SchemaMatchType, .str scope.matchType),
                   (SchemaRepositoryID, .str scope.repositoryID),
                   (SchemaRepositoryRef, .str scope.repositoryRefName)])])))]]

/-- `BaseFlattenFunc`: writes the id (panicking — `none` — on a nil
`policyConfig.Id`, which never occurs for a configuration returned by
the remote), the project id, the enabled/blocking flags with default
`true`, and the flattened settings. -/
def BaseFlattenFunc (d : ResourceData) (policyConfig : PolicyConfiguration)
    (projectID : Option String) : Option ResourceData :=
  match policyConfig.id with
  | none => none
  | some pid =>
    some (((((d.setId (toString pid)).set SchemaProjectID (.str (toStr projectID ""))).set
      SchemaEnabled (.bool (toBool policyConfig.isEnabled true))).set
      SchemaBlocking (.bool (toBool policyConfig.isBlocking true))).set
      SchemaSettings (flattenSettings policyConfig.settings))

/-- `PolicyCrudArgs`: the per-policy-kind callbacks and type id handed
to the factory.  `flattenFunc` has no error result in Go and may only
panic, hence `Option`; `expandFunc` returns a Go error, hence
`Except`. -/
structure PolicyCrudArgs where
  flattenFunc : ResourceData → PolicyConfiguration → Option String → Option ResourceData
  expandFunc : ResourceData → String → Except String (PolicyConfiguration × String)
  policyType : String

/-- The rendered text of the error `strconv.Atoi` returns for input `s`
(only its non-nilness is ever branched on; the text is interpolated into
wrapping messages via `%+v`). -/
def atoiErrText (s : String) : String :=
  "strconv.Atoi: parsing \"" ++ s ++ "\": invalid syntax"

/-- The error message of `genPolicyReadFunc` for a remote failure other
than "not found". -/
def policyLookupErrMsg (policyID : Int) (projectID : String) (errText : String) : String :=
  "Error looking up build policy configuration with ID (" ++ toString policyID ++
    ") and project ID (" ++ projectID ++ "): " ++ errText

/-- The create closure produced by `genPolicyCreateFunc`: expand, call
the remote create, flatten the server-returned configuration.  The
remote call `clients.PolicyClient.CreatePolicyConfiguration` is the
oracle `createPolicy`; the outer `none` models a panic in the flatten
callback. -/
def genPolicyCreateFunc (crudArgs : PolicyCrudArgs)
    (createPolicy : PolicyConfiguration → String → Except RemoteErr PolicyConfiguration)
    (d : ResourceData) : Option (Except String ResourceData) :=
  match crudArgs.expandFunc d crudArgs.policyType with
  | .error e => some (.error e)
  | .ok (policyConfig, projectID) =>
    match createPolicy policyConfig projectID with
    | .error e => some (.error ("Error creating policy in Azure DevOps: " ++ e.toText))
    | .ok createdPolicy =>
      (crudArgs.flattenFunc d createdPolicy (some projectID)).map Except.ok

/-- The read closure produced by `genPolicyReadFunc`: parse the stored
id, call the remote fetch, recover "not found" by clearing the id, wrap
any other error, flatten on success.  The remote call
`clients.PolicyClient.GetPolicyConfiguration` is the oracle
`getPolicy`. -/
def genPolicyReadFunc (crudArgs : PolicyCrudArgs)
    (getPolicy : String → Int → Except RemoteErr PolicyConfiguration)
    (d : ResourceData) : Option (Except String ResourceData) :=
  let projectID := d.getStr SchemaProjectID
  match atoi d.id with
  | none =>
    some (.error ("Error converting policy ID to an integer: (" ++ atoiErrText d.id ++ ")"))
  | some policyID =>
    match getPolicy projectID policyID with
    | .error e =>
      if responseWasNotFound e then some (.ok (d.setId ""))
      else some (.error (policyLookupErrMsg policyID projectID e.toText))
    | .ok policyConfig =>
      (crudArgs.flattenFunc d policyConfig (some projectID)).map Except.ok

/-- Scan for the first `/`: the characters before it and, when present,
the characters after it. -/
def splitFirstSlash : List Char → List Char × Option (List Char)
  | [] => ([], none)
  | c :: rest =>
    if c = '/' then ([], some rest)
    else
      match splitFirstSlash rest with
      | (before, r) => (c :: before, r)

/-- `strings.SplitN(s, "/", 2)`: the part before the first slash and the
unsplit remainder, or the whole string alone when it holds no slash. -/
def splitN2 (s : String) : List String :=
  match splitFirstSlash s.data with
  | (_, none) => [s]
  | (before, some after) => [String.mk before, String.mk after]

/-- The import state function produced by `genPolicyImporter`: the
external id must split on the first `/` into a non-empty project part
(`strings.EqualFold(p, "")` holds exactly for `p = ""`) and a part that
`strconv.Atoi` accepts; on success the project attribute and the
resource id are set and the single resource returned. -/
def genPolicyImporter (d : ResourceData) : Except String (List ResourceData) :=
  let id := d.id
  match splitN2 id with
  | [p0, p1] =>
    if p0 = "" ∨ p1 = "" then
      .error ("unexpected format of ID (" ++ id ++ "), expected projectid/resourceId")
    else
      match atoi p1 with
      | none => .error ("Policy configuration ID (" ++ p1 ++ ") isn't a valid Int")
      | some _ => .ok [(d.set SchemaProjectID (.str p0)).setId p1]
  | _ => .error ("unexpected format of ID (" ++ id ++ "), expected projectid/resourceId")

/-- `taskagent.TaskAgentPool`, reduced to the fields the source touches;
pointer-typed fields are `Option`. -/
structure AgentPool where
  id : Option Int
  name : Option String
  poolType : Option String
  autoProvision : Option Bool
deriving Repr, DecidableEq

/-- The two remote task-agent operations exercised by the embedded
handlers (`clients.TaskAgentClient`), as oracles. -/
structure TaskAgentClient where
  getAgentPool : Int → Except RemoteErr AgentPool
  updateAgentPool : AgentPool → Except RemoteErr AgentPool

/-- `expandAgentPool`: parses the stored id, failing only when not
creating; reads name, pool type and auto-provision from the attribute
store (`poolID` keeps Go's zero value `0` when `Atoi` failed during a
create). -/
def expandAgentPool (d : ResourceData) (forCreate : Bool) : Except String AgentPool :=
  let r := atoi d.id
  if !forCreate && r.isNone then
    .error ("Error getting agent pool Id: " ++ atoiErrText d.id)
  else
    .ok
      { id := some (r.getD 0)
        name := some (d.getStr "name")
        poolType := some (d.getStr "pool_type")
        autoProvision := some (d.getBool "auto_provision") }

/-- `flattenAzureAgentPool`: writes id (panicking — `none` — on a nil
`agentPool.Id`), name, pool type and auto-provision.  `d.Set` with the
nil pointer of an unset optional field stores the zero value. -/
def flattenAzureAgentPool (d : ResourceData) (agentPool : AgentPool) : Option ResourceData :=
  match agentPool.id with
  | none => none
  | some i =>
    some ((((d.setId (toString i)).set "name" (.str (toStr agentPool.name ""))).set
      "pool_type" (.str (toStr agentPool.poolType ""))).set
      "auto_provision" (.bool (agentPool.autoProvision.getD false)))

/-- `resourceAzureAgentPoolRead`.  The second component counts the
remote calls issued during the invocation; the outer `Option` is `none`
when a flatten panics.  Note the source treats EVERY remote failure —
"not found" included — as an error: there is no
`utils.ResponseWasNotFound` recovery here, unlike `genPolicyReadFunc`. -/
def resourceAzureAgentPoolRead (clients : TaskAgentClient) (d : ResourceData) :
    Option (Except String ResourceData) × Nat :=
  match atoi d.id with
  | none => (some (.error ("Error getting agent pool Id: " ++ atoiErrText d.id)), 0)
  | some poolID =>
    match clients.getAgentPool poolID with
    | .error e =>
      (some (.error ("Error looking up agent pool with ID " ++ toString poolID ++
        ". Error: " ++ e.toText)), 1)
    | .ok agentPool => ((flattenAzureAgentPool d agentPool).map Except.ok, 1)

/-- `resourceAzureAgentPoolUpdate`: expand (with `forCreate = false`,
so an unparseable stored id fails before any remote call), call the
remote update, then re-read.  The second component counts the remote
calls issued. -/
def resourceAzureAgentPoolUpdate (clients : TaskAgentClient) (d : ResourceData) :
    Option (Except String ResourceData) × Nat :=
  match expandAgentPool d false with
  | .error e =>
    (some (.error ("Error converting terraform data model to AzDO agent pool reference: " ++ e)),
      0)
  | .ok agentPool =>
    match clients.updateAgentPool agentPool with
    | .error e =>
      (some (.error ("Error updating agent pool in Azure DevOps: " ++ e.toText)), 1)
    | .ok _ =>
      match resourceAzureAgentPoolRead clients d with
      | (r, n) => (r, n + 1)

/-! ## Input encodings, fixtures and helper definitions for the theorems -/

/-- One scope of the settings attribute block in its schema-side shape:
a `map[string]interface{}` with the three schema keys (stored with keys
pre-sorted, cf. `goFormat`). -/
def scopeEntryToSchemaMap (e : ScopeEntry) : GoVal :=
  .map
    [(SchemaMatchType, .str e.matchType),
     (SchemaRepositoryID, .str e.repositoryID),
     (SchemaRepositoryRef, .str e.repositoryRefName)]

/-- A well-formed value of the `settings` attribute holding the given
ordered scope sequence: the singleton wrapper list around a map whose
`scope` member lists the scopes (the shape `genBaseSchema` declares). -/
def schemaSettingsVal (s : List ScopeEntry) : GoVal :=
  .list [.map [(SchemaScope, .list (s.map scopeEntryToSchemaMap))]]

/-- One scope in its API-side shape, as `expandSettings` builds it. -/
def scopeEntryToApiMap (e : ScopeEntry) : GoVal :=
  .map
    [("matchKind", .str e.matchType),
     ("refName", .str e.repositoryRefName),
     ("repositoryId", .str e.repositoryID)]

/-- The API settings payload `{ scope: [ {repositoryId, refName,
matchKind}, ... ] }` holding the given ordered scope sequence — the
wrapper shape the spec requires of the encoder. -/
def apiSettingsVal (s : List ScopeEntry) : GoVal :=
  .map [(SchemaScope, .list (s.map scopeEntryToApiMap))]

/-- Number of scopes in a schema-side settings value (`0` for any other
shape); used to tell settings values with different scope counts
apart. -/
def scopeListLen : GoVal → Nat
  | .list (.map ((_, .list l) :: _) :: _) => l.length
  | _ => 0

/-- `needle` occurs contiguously inside `hay`. -/
def containsSubstr (hay needle : String) : Prop :=
  ∃ pre post, hay = pre ++ needle ++ post

/-- A concrete scope entry. -/
def entry1 : ScopeEntry :=
  { repositoryID := "repo1", repositoryRefName := "refs/heads/main", matchType := "Exact" }

/-- A second concrete scope entry. -/
def entry2 : ScopeEntry :=
  { repositoryID := "repo2", repositoryRefName := "refs/heads/dev", matchType := "Prefix" }

/-- Resource state holding exactly `entry1` in its settings block. -/
def d1 : ResourceData := ⟨"", [(SchemaSettings, schemaSettingsVal [entry1])]⟩

/-- Resource state holding the two-element scope sequence. -/
def dW2 : ResourceData := ⟨"", [(SchemaSettings, schemaSettingsVal [entry1, entry2])]⟩

/-- Crud args whose callbacks are never reached by the facts proved with
them. -/
def crudArgs0 : PolicyCrudArgs :=
  { flattenFunc := fun d _ _ => some d
    expandFunc := fun _ _ => .error "unused"
    policyType := "fa4e907d-c16b-4a4c-9dfa-4906e5d171dd" }

/-- A concrete configuration as a per-policy expand could build it. -/
def cfgW6 : PolicyConfiguration :=
  { id := none, isEnabled := some true, isBlocking := some true,
    typeId := some "0609b952-1397-4640-95ec-e00a01b2c241",
    settings := .map [(SchemaScope, .list [])] }

/-- Crud args whose expand succeeds with `cfgW6`. -/
def crudArgs6 : PolicyCrudArgs :=
  { flattenFunc := fun d _ _ => some d
    expandFunc := fun _ _ => .ok (cfgW6, "proj-a")
    policyType := "0609b952-1397-4640-95ec-e00a01b2c241" }

/-- A remote create that always fails. -/
def failingCreate : PolicyConfiguration → String → Except RemoteErr PolicyConfiguration :=
  fun _ _ => .error (.other "VS402371: remote create failed")

/-- A remote fetch that always reports "not found". -/
def notFoundPolicyClient : String → Int → Except RemoteErr PolicyConfiguration :=
  fun _ _ => .error (.notFound "404")

/-- A remote fetch that always fails with a generic error. -/
def failingPolicyClient : String → Int → Except RemoteErr PolicyConfiguration :=
  fun _ _ => .error (.other "boom")

/-- Policy resource state with id `42` in project `proj1`. -/
def d4 : ResourceData := ⟨"42", [(SchemaProjectID, .str "proj1")]⟩

/-- Policy resource state with id `7` in project `p1`. -/
def d8 : ResourceData := ⟨"7", [(SchemaProjectID, .str "p1")]⟩

/-- A task-agent client whose fetch reports the pool as not found. -/
def poolNotFoundClient : TaskAgentClient :=
  { getAgentPool := fun _ => .error (.notFound "the agent pool was not found (status 404)")
    updateAgentPool := fun p => .ok p }

/-- A task-agent client for facts that never reach the remote. -/
def idleClient : TaskAgentClient :=
  { getAgentPool := fun _ => .error (.other "unused")
    updateAgentPool := fun p => .ok p }

/-- Agent-pool resource state with the parseable id `7`. -/
def dPool7 : ResourceData := ⟨"7", []⟩

/-- A configuration whose optional flags are absent (`nil` pointers). -/
def cfgW3 : PolicyConfiguration :=
  { id := some 7, isEnabled := none, isBlocking := none, typeId := none, settings := .map [] }

/-- A configuration with absent enabled flag and present blocking
flag. -/
def cfgW10 : PolicyConfiguration :=
  { id := some 3, isEnabled := none, isBlocking := some false, typeId := none,
    settings := .str "{}" }

/-- The claim's defaulting rule for the enabled/blocking flags: absent
means `true`, present means the remote value unchanged. -/
def flattenBoolDefault : Option Bool → Bool
  | none => true
  | some b => b

/-! ## Theorems -/

theorem string_append_assoc : ∀ (a b c : String), a ++ b ++ c = a ++ (b ++ c)
  | ⟨as⟩, ⟨bs⟩, ⟨cs⟩ => congrArg String.mk (List.append_assoc as bs cs)

theorem expandScope_schemaMap (e : ScopeEntry) :
    expandScope (scopeEntryToSchemaMap e) = some (scopeEntryToApiMap e) := rfl

theorem mapOption_expandScope (s : List ScopeEntry) :
    mapOption expandScope (s.map scopeEntryToSchemaMap) = some (s.map scopeEntryToApiMap) := by
  induction s with
  | nil => rfl
  | cons e t ih => simp [List.map, mapOption, expandScope_schemaMap, ih]

/-- C1: the settings codec round-trip law `decode(encode(s)) = s` FAILS
on the code.  Evaluating the code at a well-formed one-element scope
sequence: `expandSettings` yields the API payload, but `flattenSettings`
of that payload is the wrapper around the EMPTY scope list, not the
original value — `fmt.Sprintf("%v", ...)` renders the settings map in
Go's `map[k:v]` notation, which `json.Unmarshal` rejects, and the error
is ignored, leaving zero scopes (the extra `scope` nesting that
`flattenSettings` adds around each scope would break the round trip even
if the text had parsed). -/
theorem settings_roundtrip_loses_scopes :
    (expandSettings d1).map flattenSettings = some (schemaSettingsVal []) ∧
      schemaSettingsVal [] ≠ schemaSettingsVal [entry1] := by
  constructor
  · rfl
  · intro hcontra
    exact absurd (congrArg scopeListLen hcontra) (by decide)

/-- C2: `expandSettings` is total and shape-preserving — on every
resource state whose settings attribute block holds a well-formed scope
sequence (of any length, empty included) it returns, without error or
panic, the wrapper `{ scope: [ {repositoryId, refName, matchKind}, ...
] }` with exactly one entry per input scope, in input order. -/
theorem expandSettings_total_shape_preserving (d : ResourceData) (s : List ScopeEntry)
    (h : d.get SchemaSettings = some (schemaSettingsVal s)) :
    expandSettings d = some (apiSettingsVal s) := by
  simp [expandSettings, h, schemaSettingsVal, apiSettingsVal, SchemaScope,
    mapOption_expandScope]

theorem expandSettings_total_shape_preserving_witness :
    expandSettings dW2 = some (apiSettingsVal [entry1, entry2]) :=
  expandSettings_total_shape_preserving dW2 [entry1, entry2] rfl

/-- C3: decode never fails the invocation — `flattenSettings` returns
normally on EVERY raw settings payload, always producing the schema-side
wrapper around some (possibly empty or partial) scope list, and
`BaseFlattenFunc` likewise returns normally for every configuration the
remote can return (one carrying an id). -/
theorem flattenSettings_never_fails :
    (∀ v : GoVal, ∃ scopes : List GoVal,
      flattenSettings v = GoVal.list [GoVal.map [(SchemaScope, GoVal.list scopes)]]) ∧
    (∀ (d : ResourceData) (cfg : PolicyConfiguration) (proj : Option String) (i : Int),
      cfg.id = some i → (BaseFlattenFunc d cfg proj).isSome = true) := by
  constructor
  · intro v
    exact ⟨_, rfl⟩
  · intro d cfg proj i h
    simp [BaseFlattenFunc, h]

theorem flattenSettings_never_fails_witness :
    (BaseFlattenFunc ⟨"", []⟩ cfgW3 (some "p1")).isSome = true :=
  flattenSettings_never_fails.2 ⟨"", []⟩ cfgW3 (some "p1") 7 rfl

/-- C4: policy read not-found recovery — for every resource state with a
parseable numeric id, when the remote fetch reports "not found" the
factory-generated read returns success carrying the state with ONLY the
id cleared to `""`: the attributes are untouched (the flatten callback
is not invoked — the result does not depend on `crudArgs.flattenFunc`,
which stays universally quantified). -/
theorem policyRead_notFound_clears_id (crudArgs : PolicyCrudArgs)
    (getPolicy : String → Int → Except RemoteErr PolicyConfiguration)
    (d : ResourceData) (n : Int) (m : String)
    (h1 : atoi d.id = some n)
    (h2 : getPolicy (d.getStr SchemaProjectID) n = .error (.notFound m)) :
    genPolicyReadFunc crudArgs getPolicy d = some (.ok (d.setId "")) ∧
      (d.setId "").attrs = d.attrs ∧ (d.setId "").id = "" := by
  refine ⟨?_, rfl, rfl⟩
  simp [genPolicyReadFunc, h1, h2, responseWasNotFound]

theorem policyRead_notFound_clears_id_witness :
    genPolicyReadFunc crudArgs0 notFoundPolicyClient d4 = some (.ok (d4.setId "")) :=
  (policyRead_notFound_clears_id crudArgs0 notFoundPolicyClient d4 42 "404" rfl rfl).1

/-- C5: the importer is fully characterized by the id format — it
succeeds exactly when the external id splits on the first `/` into a
non-empty project part and an `Atoi`-parseable id part, and on success
it returns the single resource with the project attribute set to the
first part and the id set to the second; on malformed input it returns
an error (and, returning through the error branch before any `Set`,
performs no attribute mutation). -/
theorem policyImporter_characterization (d : ResourceData) :
    ((∃ ds, genPolicyImporter d = .ok ds) ↔
      ∃ p r, splitN2 d.id = [p, r] ∧ p ≠ "" ∧ (atoi r).isSome = true) ∧
    (∀ p r, splitN2 d.id = [p, r] → p ≠ "" → (atoi r).isSome = true →
      genPolicyImporter d = .ok [(d.set SchemaProjectID (.str p)).setId r]) := by
  have hmain : ∀ p r, splitN2 d.id = [p, r] → p ≠ "" → (atoi r).isSome = true →
      genPolicyImporter d = .ok [(d.set SchemaProjectID (.str p)).setId r] := by
    intro p r hs hp ha
    obtain ⟨v, hv⟩ := Option.isSome_iff_exists.mp ha
    have hr : r ≠ "" := by
      intro hre
      rw [hre] at hv
      exact Option.noConfusion hv
    simp [genPolicyImporter, hs, hp, hr, hv]
  refine ⟨⟨?_, ?_⟩, hmain⟩
  · rintro ⟨ds, hok⟩
    rcases hsp : splitN2 d.id with _ | ⟨p, _ | ⟨r, _ | _⟩⟩ <;>
      simp [genPolicyImporter, hsp] at hok
    by_cases hp : p = "" ∨ r = ""
    · simp [hp] at hok
    · push_neg at hp
      rcases hv : atoi r with _ | v
      · simp [hp.1, hp.2, hv] at hok
      · exact ⟨p, r, rfl, hp.1, by simp [hv]⟩
  · rintro ⟨p, r, hs, hp, ha⟩
    exact ⟨_, hmain p r hs hp ha⟩

theorem policyImporter_characterization_witness :
    genPolicyImporter ⟨"proj1/42", []⟩ =
      .ok [((⟨"proj1/42", []⟩ : ResourceData).set SchemaProjectID (.str "proj1")).setId "42"] :=
  (policyImporter_characterization ⟨"proj1/42", []⟩).2 "proj1" "42" rfl (by decide) rfl

/-- C6: create is atomic with respect to local identity — when the
remote create call fails, the factory-generated create returns an error
wrapping the remote error text, and neither the id nor any attribute is
assigned: the error branch returns before the flatten callback runs, so
the result is the same for every flatten callback. -/
theorem policyCreate_remote_error_atomic (crudArgs : PolicyCrudArgs)
    (createPolicy : PolicyConfiguration → String → Except RemoteErr PolicyConfiguration)
    (d : ResourceData) (cfg : PolicyConfiguration) (proj : String) (e : RemoteErr)
    (h1 : crudArgs.expandFunc d crudArgs.policyType = .ok (cfg, proj))
    (h2 : createPolicy cfg proj = .error e) :
    genPolicyCreateFunc crudArgs createPolicy d =
      some (.error ("Error creating policy in Azure DevOps: " ++ e.toText)) ∧
    ∀ f, genPolicyCreateFunc { crudArgs with flattenFunc := f } createPolicy d =
      some (.error ("Error creating policy in Azure DevOps: " ++ e.toText)) := by
  constructor
  · simp [genPolicyCreateFunc, h1, h2]
  · intro f
    simp [genPolicyCreateFunc, h1, h2]

theorem policyCreate_remote_error_atomic_witness :
    genPolicyCreateFunc crudArgs6 failingCreate ⟨"", []⟩ =
      some (.error ("Error creating policy in Azure DevOps: " ++
        RemoteErr.toText (.other "VS402371: remote create failed"))) :=
  (policyCreate_remote_error_atomic crudArgs6 failingCreate ⟨"", []⟩ cfgW6 "proj-a"
    (.other "VS402371: remote create failed") rfl rfl).1

/-- C7: the agent-pool update rejects a malformed stored identifier
locally — whenever `Atoi` rejects the stored id, the update returns the
wrapped id-format error having issued zero remote calls (the call
counter is `0` and the result holds for every remote client). -/
theorem agentPoolUpdate_rejects_malformed_id (clients : TaskAgentClient) (d : ResourceData)
    (h : atoi d.id = none) :
    resourceAzureAgentPoolUpdate clients d =
      (some (.error ("Error converting terraform data model to AzDO agent pool reference: " ++
        ("Error getting agent pool Id: " ++ atoiErrText d.id))), 0) := by
  simp [resourceAzureAgentPoolUpdate, expandAgentPool, h]

theorem agentPoolUpdate_rejects_malformed_id_witness :
    resourceAzureAgentPoolUpdate idleClient ⟨"not-a-number", []⟩ =
      (some (.error ("Error converting terraform data model to AzDO agent pool reference: " ++
        ("Error getting agent pool Id: " ++ atoiErrText "not-a-number"))), 0) :=
  agentPoolUpdate_rejects_malformed_id idleClient ⟨"not-a-number", []⟩ rfl

/-- C8: policy read generic-failure reporting — for every resource state
with a parseable numeric id, a remote failure other than "not found"
makes the factory-generated read return the wrapping error, whose
message contains both the numeric policy id and the project id; the
error branch returns before the flatten callback, so no attribute is
mutated. -/
theorem policyRead_generic_error_mentions_ids (crudArgs : PolicyCrudArgs)
    (getPolicy : String → Int → Except RemoteErr PolicyConfiguration)
    (d : ResourceData) (n : Int) (e : String)
    (h1 : atoi d.id = some n)
    (h2 : getPolicy (d.getStr SchemaProjectID) n = .error (.other e)) :
    genPolicyReadFunc crudArgs getPolicy d =
      some (.error (policyLookupErrMsg n (d.getStr SchemaProjectID) e)) ∧
    containsSubstr (policyLookupErrMsg n (d.getStr SchemaProjectID) e) (toString n) ∧
    containsSubstr (policyLookupErrMsg n (d.getStr SchemaProjectID) e)
      (d.getStr SchemaProjectID) := by
  refine ⟨?_,
    ⟨"Error looking up build policy configuration with ID (",
      ") and project ID (" ++ d.getStr SchemaProjectID ++ "): " ++ e, ?_⟩,
    ⟨"Error looking up build policy configuration with ID (" ++ toString n ++
      ") and project ID (", "): " ++ e, ?_⟩⟩
  · simp [genPolicyReadFunc, h1, h2, responseWasNotFound, RemoteErr.toText]
  · simp [policyLookupErrMsg, string_append_assoc]
  · simp [policyLookupErrMsg, string_append_assoc]

theorem policyRead_generic_error_mentions_ids_witness :
    genPolicyReadFunc crudArgs0 failingPolicyClient d8 =
      some (.error (policyLookupErrMsg 7 "p1" "boom")) :=
  (policyRead_generic_error_mentions_ids crudArgs0 failingPolicyClient d8 7 "boom" rfl rfl).1

/-- C9 counterexample: the agent-pool read does NOT recover a "not
found" remote response by clearing the local identity — at the concrete
state with id `7` and a client reporting the pool as not found, it
returns an error (where the claim demands success with the id cleared):
the source has no `utils.ResponseWasNotFound` branch. -/
theorem agentPoolRead_notFound_returns_error_cex :
    (resourceAzureAgentPoolRead poolNotFoundClient dPool7).1 =
      some (.error
        ("Error looking up agent pool with ID 7. Error: the agent pool was not found (status 404)")) :=
  rfl

/-- C9 (amended): the agent-pool read treats EVERY remote fetch failure,
"not found" included, as an error: with a parseable stored id it wraps
the error text and returns it after the single remote call, leaving the
local identity unchanged rather than clearing it. -/
theorem agentPoolRead_any_error_is_error (clients : TaskAgentClient) (d : ResourceData)
    (n : Int) (e : RemoteErr)
    (h1 : atoi d.id = some n)
    (h2 : clients.getAgentPool n = .error e) :
    resourceAzureAgentPoolRead clients d =
      (some (.error ("Error looking up agent pool with ID " ++ toString n ++
        ". Error: " ++ e.toText)), 1) := by
  simp [resourceAzureAgentPoolRead, h1, h2]

theorem agentPoolRead_any_error_is_error_witness :
    resourceAzureAgentPoolRead poolNotFoundClient ⟨"9", []⟩ =
      (some (.error ("Error looking up agent pool with ID 9. Error: the agent pool was not found (status 404)")), 1) :=
  agentPoolRead_any_error_is_error poolNotFoundClient ⟨"9", []⟩ 9
    (.notFound "the agent pool was not found (status 404)") rfl rfl

/-- C10: `BaseFlattenFunc` writes `true` for the enabled/blocking
attribute when the corresponding remote field is absent (`nil`), and the
remote value unchanged when it is present — `flattenBoolDefault` is
exactly that rule. -/
theorem baseFlatten_bool_defaults (d : ResourceData) (cfg : PolicyConfiguration)
    (proj : Option String) (i : Int) (h : cfg.id = some i) :
    (BaseFlattenFunc d cfg proj).map
        (fun d' => (d'.get SchemaEnabled, d'.get SchemaBlocking)) =
      some (some (.bool (flattenBoolDefault cfg.isEnabled)),
        some (.bool (flattenBoolDefault cfg.isBlocking))) := by
  rcases cfg with ⟨cid, cen, cbl, cty, cset⟩
  simp only at h
  subst h
  cases cen <;> cases cbl <;> rfl

theorem baseFlatten_bool_defaults_witness :
    (BaseFlattenFunc ⟨"", []⟩ cfgW10 (some "p")).map
        (fun d' => (d'.get SchemaEnabled, d'.get SchemaBlocking)) =
      some (some (.bool true), some (.bool false)) :=
  baseFlatten_bool_defaults ⟨"", []⟩ cfgW10 (some "p") 3 rfl

end BranchPolicy
